import Mathlib

/-!
# Admission webhook: the review-processing pipeline of `pkg/admission/mutation.go`

A shallow embedding of `Serve`, `validateRequest` and `writeReview`.

* Go structs become Lean structures whose defaults are the Go zero values; a Go
  pointer or interface field becomes an `Option` (`none` is `nil`).
* The collaborators that live outside the package (the universal deserializer,
  `json.Marshal`, the `http.ResponseWriter`, `fmt`) are the fields of `Env`.
  A Go call returning `(value, error)` whose value is still used on the error
  path is a pair; one whose value is dropped on error is an `Except`.
* A handler run is the list of calls it makes on its collaborators, in order
  (`Event`).  `statusCode` reads the HTTP status off such a run.
-/

set_option linter.dupNamespace false

namespace Admission

/-- Go `[]byte`. -/
abbrev Bytes := List UInt8

/-- The constant `metav1.StatusFailure`. -/
def StatusFailure : String := "Failure"

/-- The constant `http.StatusInternalServerError`. -/
def StatusInternalServerError : Nat := 500

/-- The constant `http.StatusOK`. -/
def StatusOK : Nat := 200

/-- The type `metav1.GroupVersionKind`. -/
structure GroupVersionKind where
  Group : String := ""
  Version : String := ""
  Kind : String := ""
  deriving DecidableEq

/-- The type `metav1.GroupVersionResource`. -/
structure GroupVersionResource where
  Group : String := ""
  Version : String := ""
  Resource : String := ""
  deriving DecidableEq

/-- The type `authenticationv1.UserInfo`. -/
structure UserInfo where
  Username : String := ""
  UID : String := ""
  Groups : List String := []
  Extra : List (String × List String) := []
  deriving DecidableEq

/-- The type `corev1.Secret`: the credential-bearing resource.  `Data` is the Go
map `map[string][]byte`, listed in the order the `range` loop visits it. -/
structure Secret where
  Name : String := ""
  Namespace : String := ""
  Data : List (String × Bytes) := []
  StringData : List (String × String) := []
  Type_ : String := ""
  deriving DecidableEq

/-- A non-nil `runtime.Object`, as far as the type switch of `Serve` tells
objects apart: a `*corev1.Secret`, or an object of any other type (named by its
kind). -/
inductive RuntimeObject where
  | Secret (secret : Admission.Secret)
  | Other (kind : String)
  deriving DecidableEq

/-- The type `runtime.RawExtension`: the raw payload and the typed object. -/
structure RawExtension where
  Raw : Bytes := []
  Object : Option RuntimeObject := none
  deriving DecidableEq

/-- The type `metav1.Status` (the fields a review result carries). -/
structure Status where
  Status : String := ""
  Message : String := ""
  Reason : String := ""
  Code : Int := 0
  deriving DecidableEq

/-- The type `admissionv1beta1.AdmissionRequest`. -/
structure AdmissionRequest where
  UID : String := ""
  Kind : GroupVersionKind := {}
  Resource : GroupVersionResource := {}
  SubResource : String := ""
  RequestKind : Option GroupVersionKind := none
  RequestResource : Option GroupVersionResource := none
  RequestSubResource : String := ""
  Name : String := ""
  Namespace : String := ""
  Operation : String := ""
  UserInfo : Admission.UserInfo := {}
  Object : RawExtension := {}
  OldObject : RawExtension := {}
  DryRun : Option Bool := none
  Options : RawExtension := {}
  deriving DecidableEq

/-- The type `admissionv1beta1.AdmissionResponse`. -/
structure AdmissionResponse where
  UID : String := ""
  Allowed : Bool := false
  Result : Option Status := none
  Patch : Option Bytes := none
  PatchType : Option String := none
  AuditAnnotations : List (String × String) := []
  deriving DecidableEq

/-- The type `admissionv1beta1.AdmissionReview`: the review envelope. -/
structure AdmissionReview where
  Kind : String := ""
  APIVersion : String := ""
  Request : Option AdmissionRequest := none
  Response : Option AdmissionResponse := none
  deriving DecidableEq

/-- What `validateRequest` reads of the `*http.Request`: the outcome of
`ioutil.ReadAll(req.Body)` and the request URI. -/
structure Request where
  Body : Except String Bytes
  RequestURI : String := ""

/-- The object the universal deserializer hands back for the request body: an
`*admissionv1beta1.AdmissionReview`, or an object of another type together with
the `%s` rendering of its group-version-kind. -/
inductive Decoded where
  | Review (review : AdmissionReview)
  | Other (gvk : String)
  deriving DecidableEq

/-- The collaborators of the handler that live outside the package. -/
structure Env where
  /-- The call `codecs.UniversalDeserializer().Decode(body, &reviewGVK, &AdmissionReview)`. -/
  DecodeReview : Bytes → Except String Decoded
  /-- The call `codecs.UniversalDeserializer().Decode(raw, nil, nil)`: the
  returned object and the returned error. -/
  Decode : Bytes → Option RuntimeObject × Option String
  /-- The call `json.Marshal(review)`: the returned bytes and the returned error. -/
  Marshal : AdmissionReview → Bytes × Option String
  /-- The error, if any, of `w.Write(p)`. -/
  Write : Bytes → Option String
  /-- The `%v` rendering of a non-nil object. -/
  Sprint : RuntimeObject → String

/-- One call made by the handler on a collaborator. -/
inductive Event where
  /-- The call `responsewriters.InternalError(w, req, err)`, which answers
  `Internal Server Error` with status 500 and the error text. -/
  | InternalError (requestURI : String) (err : String)
  /-- Entry into `writeReview(w, review)`. -/
  | writeReview (review : AdmissionReview)
  /-- The call `klog.Infof("Processing k:%v, v: %v", k, v)`. -/
  | klogProcessing (k : String) (v : Bytes)
  /-- A call of `klog.Errorf` with the formatted message. -/
  | klogErrorf (msg : String)
  /-- The call `http.Error(w, msg, code)`. -/
  | httpError (msg : String) (code : Nat)
  /-- The call `w.Write(p)`. -/
  | Write (p : Bytes)
  /-- A run-time panic (nil pointer dereference). -/
  | panic
  deriving DecidableEq

/-- The `%v` rendering of a `runtime.Object` interface value; Go prints a nil
interface as `<nil>`. -/
def formatV (env : Env) : Option RuntimeObject → String
  | none => "<nil>"
  | some obj => env.Sprint obj

/-- The function `validateRequest` of `mutation.go`. -/
def validateRequest (env : Env) (req : Request) : Except String AdmissionReview :=
  match req.Body with
  | .error err => .error ("failed to read body: " ++ err)
  | .ok body =>
    match env.DecodeReview body with
    | .error err => .error ("failed to decode body: " ++ err)
    | .ok (.Other gvk) => .error ("unexpected GroupVersionKind: " ++ gvk)
    | .ok (.Review review) =>
      match review.Request with
      | none => .error "unexpected nil request"
      | some _ => .ok review

/-- The function `writeReview` of `mutation.go`.  Neither `if` block returns, so
the `w.Write(resp)` call follows in every case. -/
def writeReview (env : Env) (review : AdmissionReview) : List Event :=
  let (resp, err) := env.Marshal review
  let encode : List Event :=
    match err with
    | some e =>
      [Event.klogErrorf ("Can't encode response: " ++ e),
       Event.httpError ("could not encode response: " ++ e) StatusInternalServerError]
    | none => []
  let write : List Event :=
    match env.Write resp with
    | some e =>
      [Event.klogErrorf ("Can't write response: " ++ e),
       Event.httpError ("could not write response: " ++ e) StatusInternalServerError]
    | none => []
  Event.writeReview review :: (encode ++ Event.Write resp :: write)

/-- The function `Serve` of `mutation.go`. -/
def Serve (env : Env) (req : Request) : List Event :=
  match validateRequest env req with
  | .error err => [Event.InternalError req.RequestURI err]
  | .ok review =>
    match review.Request with
    | none => [Event.panic]
    | some request =>
      let response : AdmissionResponse := { UID := request.UID }
      -- decode object
      let (object, err) : Option RuntimeObject × Option String :=
        match request.Object.Object with
        | none => env.Decode request.Object.Raw
        | some obj => (some obj, none)
      let request : AdmissionRequest :=
        { request with Object := { request.Object with Object := object } }
      match err with
      | some e =>
        let response : AdmissionResponse :=
          { response with Result := some { Message := e, Status := StatusFailure } }
        writeReview env { review with Request := some request, Response := some response }
      | none =>
        match object with
        | some (.Secret secret) =>
          let response : AdmissionResponse := { response with Allowed := true }
          secret.Data.map (fun kv => Event.klogProcessing kv.1 kv.2) ++
            writeReview env { review with Request := some request, Response := some response }
        | other =>
          [Event.InternalError req.RequestURI ("unexpected object type: " ++ formatV env other)]

/-- The HTTP status of a run, as `net/http` fixes it: the first call that sends
the header decides (`http.Error` and `InternalError` send their code, a bare
`Write` sends 200), and a recorder that was never written to reports 200. -/
def statusCode : List Event → Nat
  | [] => StatusOK
  | Event.InternalError _ _ :: _ => StatusInternalServerError
  | Event.httpError _ code :: _ => code
  | Event.Write _ :: _ => StatusOK
  | _ :: rest => statusCode rest

/-- The envelopes handed to `writeReview` during a run, in order. -/
def reviewsWritten (run : List Event) : List AdmissionReview :=
  run.filterMap fun
    | Event.writeReview review => some review
    | _ => none

/-- The error texts handed to `responsewriters.InternalError` during a run. -/
def internalErrors (run : List Event) : List String :=
  run.filterMap fun
    | Event.InternalError _ err => some err
    | _ => none

/-- The packages whose `AddToScheme` registers the types the model names. -/
inductive SchemeBuilder where
  | admissionv1beta1
  | corev1
  deriving DecidableEq

/-- The package variable `scheme` once `init` has run: `init` calls
`admissionv1beta1.AddToScheme(scheme)` and nothing else. -/
def scheme : List SchemeBuilder := [SchemeBuilder.admissionv1beta1]

/-- A deserializer of a codec factory built on the scheme `registered` creates
only objects of registered types, and `*corev1.Secret` is registered by
`corev1.AddToScheme` alone: the payload decoder returns a secret only when
`corev1` is registered. -/
def Env.DecodesWithin (env : Env) (registered : List SchemeBuilder) : Prop :=
  ∀ raw secret, (env.Decode raw).1 = some (RuntimeObject.Secret secret) →
    SchemeBuilder.corev1 ∈ registered

/-- Decoding a request body fills only the `Raw` half of a `runtime.RawExtension`:
the typed object of a decoded envelope is nil. -/
def Env.LeavesObjectsRaw (env : Env) : Prop :=
  ∀ body review request, env.DecodeReview body = .ok (.Review review) →
    review.Request = some request → request.Object.Object = none

/-- A deserializer over `scheme`, an encoder and a writer fixed for evaluation:
the empty body is an envelope without a request, bodies `[1]` to `[3]` are
envelopes whose request carries respectively no object, a secret payload (`[7]`)
and a payload of a registered kind (`[8]`), and body `[5]` is not an envelope; an
empty payload has no kind, and the secret payload is of a kind that is not
registered. -/
def fixtureEnv : Env where
  DecodeReview := fun body =>
    if body = [] then .ok (.Review {})
    else if body = [1] then .ok (.Review { Request := some { UID := "u1" } })
    else if body = [2] then
      .ok (.Review { Request := some { UID := "u2", Object := { Raw := [7] } } })
    else if body = [3] then
      .ok (.Review { Request := some { UID := "u3", Object := { Raw := [8] } } })
    else if body = [5] then .ok (.Other "/v1, Kind=Pod")
    else .error "couldn't get version/kind; json parse error"
  Decode := fun raw =>
    if raw = [] then (none, some "Object 'Kind' is missing in ''")
    else if raw = [7] then (none, some "no kind Secret is registered for version v1 in scheme")
    else if raw = [8] then (some (.Other "AdmissionReview"), none)
    else (none, some "couldn't get version/kind; json parse error")
  Marshal := fun review =>
    match review.Response with
    | some response => ([if response.Allowed then 1 else 0], none)
    | none => ([], none)
  Write := fun _ => none
  Sprint := fun obj =>
    match obj with
    | .Secret secret => "&Secret " ++ secret.Name
    | .Other kind => "&" ++ kind

/-- The fixture with an encoder that fails, returning no bytes, on an envelope
whose raw object payload is the single byte 123 (an opening brace, not valid JSON). -/
def failingMarshalEnv : Env :=
  { fixtureEnv with
    Marshal := fun review =>
      if review.Request.map (fun request => request.Object.Raw) = some [123] then
        ([], some "json: error calling MarshalJSON for type runtime.RawExtension")
      else fixtureEnv.Marshal review }

/-- The fixture over a scheme to which `corev1.AddToScheme` has been applied as
well: the payload `[7]` decodes to a secret. -/
def coreSchemeEnv : Env :=
  { fixtureEnv with
    Decode := fun raw =>
      if raw = [7] then (some (.Secret { Name := "s", Data := [("k", [1, 2])] }), none)
      else fixtureEnv.Decode raw }

/-- The fixture with one more body, `[6]`, an envelope whose request carries no
object and an old object whose raw payload is the single byte 123 (an opening
brace, not valid JSON), on which the encoder fails, returning no bytes. -/
def invalidOldObjectEnv : Env :=
  { fixtureEnv with
    DecodeReview := fun body =>
      if body = [6] then
        .ok (.Review { Request := some { UID := "u6", OldObject := { Raw := [123] } } })
      else fixtureEnv.DecodeReview body
    Marshal := fun review =>
      if review.Request.map (fun request => request.OldObject.Raw) = some [123] then
        ([], some "json: error calling MarshalJSON for type runtime.RawExtension")
      else fixtureEnv.Marshal review }

/-- A request for `/secrets` with the given body. -/
def secretsRequest (body : Bytes) : Request :=
  { Body := .ok body, RequestURI := "/secrets" }

/-- The failure envelope `Serve` writes for `secretsRequest [1]` under the fixture. -/
def missingKindReview : AdmissionReview :=
  { Request := some { UID := "u1" },
    Response := some { UID := "u1",
                       Result := some { Message := "Object 'Kind' is missing in ''",
                                        Status := "Failure" } } }

/-- The secret that the payload `[7]` decodes to once `corev1` is registered. -/
def fixtureSecret : Secret := { Name := "s", Data := [("k", [1, 2])] }

/-- The envelope `Serve` writes for `secretsRequest [2]` under the fixture. -/
def deniedSecretReview : AdmissionReview :=
  { Request := some { UID := "u2", Object := { Raw := [7] } },
    Response := some { UID := "u2",
                       Result := some { Message :=
                                          "no kind Secret is registered for version v1 in scheme",
                                        Status := "Failure" } } }

/-- The allowed envelope `Serve` writes for `secretsRequest [2]` once `corev1` is
registered. -/
def allowedSecretReview : AdmissionReview :=
  { Request := some { UID := "u2",
                      Object := { Raw := [7], Object := some (.Secret fixtureSecret) } },
    Response := some { UID := "u2", Allowed := true } }

/-! ## Shared lemmas -/

theorem validateRequest_ok_request {env : Env} {req : Request} {review : AdmissionReview}
    (h : validateRequest env req = .ok review) : ∃ request, review.Request = some request := by
  unfold validateRequest at h
  split at h
  · cases h
  · split at h
    · cases h
    · cases h
    · split at h
      · cases h
      · rename_i request hreq
        cases h
        exact ⟨request, hreq⟩

@[simp] theorem reviewsWritten_writeReview (env : Env) (review : AdmissionReview) :
    reviewsWritten (writeReview env review) = [review] := by
  simp only [writeReview, reviewsWritten]
  cases (env.Marshal review).2 <;> cases env.Write (env.Marshal review).1 <;>
    simp [List.filterMap_cons]

@[simp] theorem internalErrors_writeReview (env : Env) (review : AdmissionReview) :
    internalErrors (writeReview env review) = [] := by
  simp only [writeReview, internalErrors]
  cases (env.Marshal review).2 <;> cases env.Write (env.Marshal review).1 <;>
    simp [List.filterMap_cons]

theorem panic_not_mem_writeReview (env : Env) (review : AdmissionReview) :
    Event.panic ∉ writeReview env review := by
  simp only [writeReview]
  cases (env.Marshal review).2 <;> cases env.Write (env.Marshal review).1 <;> simp

@[simp] theorem reviewsWritten_klog_append (data : List (String × Bytes)) (run : List Event) :
    reviewsWritten (data.map (fun kv => Event.klogProcessing kv.1 kv.2) ++ run)
      = reviewsWritten run := by
  induction data with
  | nil => rfl
  | cons kv rest _ => simp [reviewsWritten, List.filterMap_cons]

@[simp] theorem internalErrors_klog_append (data : List (String × Bytes)) (run : List Event) :
    internalErrors (data.map (fun kv => Event.klogProcessing kv.1 kv.2) ++ run)
      = internalErrors run := by
  induction data with
  | nil => rfl
  | cons kv rest _ => simp [internalErrors, List.filterMap_cons]

theorem Write_mem_writeReview (env : Env) (review : AdmissionReview) :
    Event.Write (env.Marshal review).1 ∈ writeReview env review := by
  simp only [writeReview]
  cases (env.Marshal review).2 <;> cases env.Write (env.Marshal review).1 <;> simp

theorem statusCode_writeReview_failed (env : Env) (review : AdmissionReview)
    (h : (env.Marshal review).2 ≠ none) :
    statusCode (writeReview env review) = StatusInternalServerError := by
  simp only [writeReview]
  cases he : (env.Marshal review).2 with
  | none => exact absurd he h
  | some e => simp [statusCode]

theorem statusCode_writeReview_ok (env : Env) (review : AdmissionReview)
    (h : (env.Marshal review).2 = none) : statusCode (writeReview env review) = StatusOK := by
  simp only [writeReview, h]
  cases env.Write (env.Marshal review).1 <;> simp [statusCode]

/-- What `Serve` does once `validateRequest` has returned an envelope whose
request is `request`: the body of `Serve` after its first `if`. -/
theorem Serve_of_validated {env : Env} {req : Request} {review : AdmissionReview}
    {request : AdmissionRequest} (hv : validateRequest env req = .ok review)
    (hreq : review.Request = some request) :
    Serve env req =
      match (match request.Object.Object with
             | none => env.Decode request.Object.Raw
             | some obj => (some obj, none) : Option RuntimeObject × Option String) with
      | (object, some e) =>
        writeReview env { review with
          Request := some { request with Object := { request.Object with Object := object } },
          Response := some { UID := request.UID,
                             Result := some { Message := e, Status := StatusFailure } } }
      | (some (.Secret secret), none) =>
        secret.Data.map (fun kv => Event.klogProcessing kv.1 kv.2) ++
          writeReview env { review with
            Request := some { request with
              Object := { request.Object with Object := some (.Secret secret) } },
            Response := some { UID := request.UID, Allowed := true } }
      | (other, none) =>
        [Event.InternalError req.RequestURI ("unexpected object type: " ++ formatV env other)] := by
  unfold Serve
  simp only [hv, hreq]
  generalize (match request.Object.Object with
             | none => env.Decode request.Object.Raw
             | some obj => (some obj, none) : Option RuntimeObject × Option String) = r
  obtain ⟨object, err⟩ := r
  cases err with
  | some e => simp
  | none =>
    cases object with
    | none => simp
    | some obj => cases obj <;> simp

/-- The three ways `Serve` ends: a single `InternalError` call; a run of
`writeReview` on the decode-failure envelope; the inspection log followed by a
run of `writeReview` on the allowed envelope. -/
theorem Serve_cases (env : Env) (req : Request) :
    (∃ err, Serve env req = [Event.InternalError req.RequestURI err]) ∨
    (∃ review request object e,
      validateRequest env req = .ok review ∧ review.Request = some request ∧
      request.Object.Object = none ∧ env.Decode request.Object.Raw = (object, some e) ∧
      Serve env req = writeReview env { review with
        Request := some { request with Object := { request.Object with Object := object } },
        Response := some { UID := request.UID,
                           Result := some { Message := e, Status := StatusFailure } } }) ∨
    (∃ review request secret,
      validateRequest env req = .ok review ∧ review.Request = some request ∧
      (request.Object.Object = some (.Secret secret) ∨
        (request.Object.Object = none ∧
          env.Decode request.Object.Raw = (some (.Secret secret), none))) ∧
      Serve env req = secret.Data.map (fun kv => Event.klogProcessing kv.1 kv.2) ++
        writeReview env { review with
          Request := some { request with
            Object := { request.Object with Object := some (.Secret secret) } },
          Response := some { UID := request.UID, Allowed := true } }) := by
  cases hv : validateRequest env req with
  | error err => exact Or.inl ⟨err, by simp [Serve, hv]⟩
  | ok review =>
    obtain ⟨request, hreq⟩ := validateRequest_ok_request hv
    have hs := Serve_of_validated hv hreq
    cases hobj : request.Object.Object with
    | some obj =>
      rw [hobj] at hs
      cases obj with
      | Secret secret =>
        exact Or.inr (Or.inr ⟨review, request, secret, rfl, hreq, Or.inl hobj, by simpa using hs⟩)
      | Other kind => exact Or.inl ⟨_, by simpa using hs⟩
    | none =>
      rw [hobj] at hs
      rcases hd : env.Decode request.Object.Raw with ⟨object, err⟩
      rw [hd] at hs
      cases err with
      | some e =>
        exact Or.inr (Or.inl ⟨review, request, object, e, rfl, hreq, hobj, hd, by simpa using hs⟩)
      | none =>
        cases object with
        | none => exact Or.inl ⟨_, by simpa using hs⟩
        | some obj =>
          cases obj with
          | Secret secret =>
            exact Or.inr (Or.inr ⟨review, request, secret, rfl, hreq, Or.inr ⟨hobj, hd⟩,
              by simpa using hs⟩)
          | Other kind => exact Or.inl ⟨_, by simpa using hs⟩

/-- The run of `Serve` on a validated envelope whose typed object is nil and whose
raw payload fails to decode: one run of `writeReview` on the failure envelope. -/
theorem Serve_of_decode_failure {env : Env} {req : Request} {review : AdmissionReview}
    {request : AdmissionRequest} {e : String}
    (hv : validateRequest env req = .ok review) (hreq : review.Request = some request)
    (hobj : request.Object.Object = none)
    (herr : (env.Decode request.Object.Raw).2 = some e) :
    Serve env req = writeReview env { review with
      Request := some { request with
        Object := { request.Object with Object := (env.Decode request.Object.Raw).1 } },
      Response := some { UID := request.UID,
                         Result := some { Message := e, Status := StatusFailure } } } := by
  have hs := Serve_of_validated hv hreq
  rw [hobj] at hs
  rcases hd : env.Decode request.Object.Raw with ⟨object, err⟩
  rw [hd] at herr hs
  simp only at herr
  subst herr
  simpa using hs

/-- Writing back a nil typed object into a request whose typed object is nil
leaves the request as it was. -/
theorem request_with_nil_object {request : AdmissionRequest}
    (h : request.Object.Object = none) :
    { request with Object := { request.Object with Object := none } } = request := by
  obtain ⟨_, _, _, _, _, _, _, _, _, _, _, ⟨raw, object⟩, _, _, _⟩ := request
  simp only at h
  subst h
  rfl

/-! ## The claims -/

/-- C1: when the body is read and decodes to a review envelope whose `Request`
is nil, `validateRequest` fails with `unexpected nil request`, and `Serve` makes
exactly one call, `InternalError` with that error (status 500), and never calls
`writeReview`. -/
theorem nil_request_internal_error (env : Env) (req : Request) (body : Bytes)
    (review : AdmissionReview) (hbody : req.Body = .ok body)
    (hdec : env.DecodeReview body = .ok (.Review review)) (hnil : review.Request = none) :
    validateRequest env req = .error "unexpected nil request" ∧
    Serve env req = [Event.InternalError req.RequestURI "unexpected nil request"] ∧
    statusCode (Serve env req) = 500 ∧
    reviewsWritten (Serve env req) = [] := by
  have hv : validateRequest env req = .error "unexpected nil request" := by
    simp [validateRequest, hbody, hdec, hnil]
  have hs : Serve env req = [Event.InternalError req.RequestURI "unexpected nil request"] := by
    simp [Serve, hv]
  refine ⟨hv, hs, ?_, ?_⟩
  · rw [hs]; rfl
  · rw [hs]; rfl

/-- C2: for a validated envelope whose typed object is nil and whose raw payload
fails to decode with error `e`, `Serve` makes no `InternalError` call; its run is
exactly one run of `writeReview` (nothing is dispatched), on an envelope whose
`Response` has `Allowed` false and a `Result` with `Message` `e` and `Status`
`Failure`. -/
theorem decode_failure_written_as_denial (env : Env) (req : Request)
    (review : AdmissionReview) (request : AdmissionRequest) (e : String)
    (hv : validateRequest env req = .ok review) (hreq : review.Request = some request)
    (hobj : request.Object.Object = none)
    (herr : (env.Decode request.Object.Raw).2 = some e) :
    internalErrors (Serve env req) = [] ∧
    ∃ written response result,
      Serve env req = writeReview env written ∧
      reviewsWritten (Serve env req) = [written] ∧
      written.Response = some response ∧ response.Allowed = false ∧
      response.Result = some result ∧ result.Message = e ∧ result.Status = StatusFailure := by
  rw [Serve_of_decode_failure hv hreq hobj herr]
  exact ⟨internalErrors_writeReview env _, _,
    ({ UID := request.UID,
       Result := some { Message := e, Status := StatusFailure } } : AdmissionResponse),
    ({ Message := e, Status := StatusFailure } : Status), rfl,
    reviewsWritten_writeReview env _, rfl, rfl, rfl, rfl, rfl⟩

/-- C3: for a validated envelope whose typed object, pre-typed or decoded without
error, is not a `*corev1.Secret`, `Serve` makes exactly one call, `InternalError`
with the error `unexpected object type: ` followed by the rendering of the
object (status 500), and never calls `writeReview`. -/
theorem unsupported_type_internal_error (env : Env) (req : Request)
    (review : AdmissionReview) (request : AdmissionRequest) (object : Option RuntimeObject)
    (hv : validateRequest env req = .ok review) (hreq : review.Request = some request)
    (htyped : (request.Object.Object ≠ none ∧ request.Object.Object = object) ∨
      (request.Object.Object = none ∧ env.Decode request.Object.Raw = (object, none)))
    (hnot : ∀ secret, object ≠ some (.Secret secret)) :
    Serve env req =
      [Event.InternalError req.RequestURI ("unexpected object type: " ++ formatV env object)] ∧
    statusCode (Serve env req) = 500 ∧
    reviewsWritten (Serve env req) = [] := by
  have hs : Serve env req =
      [Event.InternalError req.RequestURI
        ("unexpected object type: " ++ formatV env object)] := by
    rw [Serve_of_validated hv hreq]
    rcases htyped with ⟨hne, hpre⟩ | ⟨hnone, hdec⟩
    · rw [hpre] at hne ⊢
      cases object with
      | none => exact absurd rfl hne
      | some obj =>
        cases obj with
        | Secret secret => exact absurd rfl (hnot secret)
        | Other kind => simp
    · rw [hnone]
      simp only [hdec]
  refine ⟨hs, ?_, ?_⟩
  · rw [hs]; rfl
  · rw [hs]; rfl

/-- The `case *corev1.Secret` branch of `Serve`: for a validated envelope whose
typed object, pre-typed or decoded without error, is a `*corev1.Secret` with any
data mapping, `Serve` makes no `InternalError` call and calls `writeReview`
exactly once, on an envelope whose `Response` has `Allowed` true, no `Result` and
no `Patch`. -/
theorem secret_allowed_without_status (env : Env) (req : Request)
    (review : AdmissionReview) (request : AdmissionRequest) (secret : Secret)
    (hv : validateRequest env req = .ok review) (hreq : review.Request = some request)
    (htyped : request.Object.Object = some (.Secret secret) ∨
      (request.Object.Object = none ∧
        env.Decode request.Object.Raw = (some (.Secret secret), none))) :
    internalErrors (Serve env req) = [] ∧
    ∃ written response,
      reviewsWritten (Serve env req) = [written] ∧
      written.Response = some response ∧ response.Allowed = true ∧
      response.Result = none ∧ response.Patch = none := by
  have hs : Serve env req =
      secret.Data.map (fun kv => Event.klogProcessing kv.1 kv.2) ++
        writeReview env { review with
          Request := some { request with
            Object := { request.Object with Object := some (.Secret secret) } },
          Response := some { UID := request.UID, Allowed := true } } := by
    rw [Serve_of_validated hv hreq]
    rcases htyped with hpre | ⟨hnone, hdec⟩
    · rw [hpre]
    · rw [hnone]
      simp only [hdec]
  rw [hs]
  refine ⟨by simp, { review with
      Request := some { request with
        Object := { request.Object with Object := some (.Secret secret) } },
      Response := some { UID := request.UID, Allowed := true } },
    { UID := request.UID, Allowed := true }, by simp, rfl, rfl, rfl, rfl⟩

/-- Under the scheme of the source the secret branch is never reached: with a
deserializer that creates a secret only when `corev1` is registered and that
leaves the typed object of a decoded envelope nil, no run of `Serve` writes an
envelope with `Allowed` true. -/
theorem Serve_never_allows_within_scheme (env : Env) (req : Request)
    (hscheme : env.DecodesWithin scheme) (hraw : env.LeavesObjectsRaw)
    (written : AdmissionReview) (response : AdmissionResponse)
    (h : written ∈ reviewsWritten (Serve env req))
    (hresp : written.Response = some response) : response.Allowed = false := by
  rcases Serve_cases env req with ⟨err, hs⟩ | ⟨review, request, object, e, -, -, -, -, hs⟩ |
    ⟨review, request, secret, hv, hreq, htyped, hs⟩
  · rw [hs] at h
    simp [reviewsWritten] at h
  · rw [hs] at h
    simp only [reviewsWritten_writeReview, List.mem_singleton] at h
    subst h
    simp only [Option.some.injEq] at hresp
    subst hresp
    rfl
  · exfalso
    have hbody : ∃ body, req.Body = .ok body ∧ env.DecodeReview body = .ok (.Review review) := by
      unfold validateRequest at hv
      split at hv
      · cases hv
      · rename_i body hb
        split at hv
        · cases hv
        · cases hv
        · rename_i review2 hd
          split at hv
          · cases hv
          · cases hv
            exact ⟨body, hb, hd⟩
    obtain ⟨body, -, hd⟩ := hbody
    have hnil := hraw body review request hd hreq
    rcases htyped with hpre | ⟨-, hdec⟩
    · rw [hnil] at hpre
      cases hpre
    · have hmem := hscheme request.Object.Raw secret (by rw [hdec])
      simp [scheme] at hmem

/-- C4 (the code departs from the claim): the fixture's deserializer stays
within `scheme` and leaves typed objects nil, and for the envelope whose object
is a secret payload `Serve` answers with status 200 and writes one envelope whose
`Response` has `Allowed` false and a `Failure` result carrying the decode error:
the secret is not decoded, the secret branch is not reached and nothing is
allowed. -/
theorem Serve_denies_secret_payload :
    fixtureEnv.DecodesWithin scheme ∧ fixtureEnv.LeavesObjectsRaw ∧
    validateRequest fixtureEnv (secretsRequest [2]) =
      .ok { Request := some { UID := "u2", Object := { Raw := [7] } } } ∧
    Serve fixtureEnv (secretsRequest [2]) = writeReview fixtureEnv deniedSecretReview ∧
    reviewsWritten (Serve fixtureEnv (secretsRequest [2])) = [deniedSecretReview] ∧
    statusCode (Serve fixtureEnv (secretsRequest [2])) = 200 ∧
    deniedSecretReview.Response =
      some { UID := "u2", Allowed := false,
             Result := some { Message := "no kind Secret is registered for version v1 in scheme",
                              Status := "Failure" } } := by
  refine ⟨?_, ?_, rfl, rfl, rfl, rfl, rfl⟩
  · intro raw secret h
    simp only [fixtureEnv] at h
    split_ifs at h
    simp at h
  · intro body review request hd hreq
    simp only [fixtureEnv] at hd
    split_ifs at hd <;> simp at hd <;> subst hd <;> simp at hreq <;> subst hreq <;> rfl

/-- C5 (the code departs from the claim): on an envelope whose encoding fails,
`writeReview` answers `http.Error` with status 500 and the diagnostic, and then
still calls `w.Write` with the bytes `json.Marshal` returned. -/
theorem writeReview_writes_after_marshal_failure :
    writeReview failingMarshalEnv { Request := some { Object := { Raw := [123] } } } =
      [Event.writeReview { Request := some { Object := { Raw := [123] } } },
       Event.klogErrorf
         "Can't encode response: json: error calling MarshalJSON for type runtime.RawExtension",
       Event.httpError
         "could not encode response: json: error calling MarshalJSON for type runtime.RawExtension"
         500,
       Event.Write []] := by
  rfl

/-- C6: every envelope `Serve` hands to `writeReview` has a request and a
response, and the response's `UID` is the request's `UID`. -/
theorem response_uid_is_request_uid (env : Env) (req : Request) (written : AdmissionReview)
    (h : written ∈ reviewsWritten (Serve env req)) :
    ∃ request response,
      written.Request = some request ∧ written.Response = some response ∧
      response.UID = request.UID := by
  rcases Serve_cases env req with ⟨err, hs⟩ | ⟨review, request, object, e, -, -, -, -, hs⟩ |
    ⟨review, request, secret, -, -, -, hs⟩
  · rw [hs] at h
    simp [reviewsWritten] at h
  · rw [hs] at h
    simp only [reviewsWritten_writeReview, List.mem_singleton] at h
    subst h
    exact ⟨_, _, rfl, rfl, rfl⟩
  · rw [hs] at h
    simp only [reviewsWritten_klog_append, reviewsWritten_writeReview, List.mem_singleton] at h
    subst h
    exact ⟨_, _, rfl, rfl, rfl⟩

/-- C7 (as stated, refuted): an envelope with a non-nil request that carries no
typed object and an empty raw payload, decoded by a deserializer whose error on
the empty payload is `Object 'Kind' is missing in ''`, for which `Serve` answers
with status 500 and not 200: the envelope's old object does not encode. -/
theorem missing_object_answers_500 :
    validateRequest invalidOldObjectEnv (secretsRequest [6]) =
      .ok { Request := some { UID := "u6", OldObject := { Raw := [123] } } } ∧
    ({ UID := "u6", OldObject := { Raw := [123] } } : AdmissionRequest).Object.Object = none ∧
    ({ UID := "u6", OldObject := { Raw := [123] } } : AdmissionRequest).Object.Raw = [] ∧
    (invalidOldObjectEnv.Decode []).2 = some "Object 'Kind' is missing in ''" ∧
    statusCode (Serve invalidOldObjectEnv (secretsRequest [6])) = 500 ∧
    statusCode (Serve invalidOldObjectEnv (secretsRequest [6])) ≠ 200 := by
  refine ⟨rfl, rfl, rfl, rfl, rfl, ?_⟩
  decide

/-- C7 (amended): for a validated envelope whose request carries no typed object
and an empty raw payload that the deserializer rejects with error `e`, `Serve`
makes no `InternalError` call and hands `writeReview` exactly one envelope, whose
`Response` has `Allowed` false and a `Result` with `Message` `e` and `Status`
`Failure`; `w.Write` is called with the bytes `json.Marshal` returned for it, and
the status is 200 if that encoding succeeded and 500 if it failed. -/
theorem missing_object_answers_failure (env : Env) (req : Request)
    (review : AdmissionReview) (request : AdmissionRequest) (e : String)
    (hv : validateRequest env req = .ok review) (hreq : review.Request = some request)
    (hobj : request.Object.Object = none) (hraw : request.Object.Raw = [])
    (herr : (env.Decode []).2 = some e) :
    internalErrors (Serve env req) = [] ∧
    ∃ written response result,
      reviewsWritten (Serve env req) = [written] ∧
      Event.Write (env.Marshal written).1 ∈ Serve env req ∧
      written.Response = some response ∧ response.Allowed = false ∧
      response.Result = some result ∧
      result.Message = e ∧ result.Status = "Failure" ∧
      ((env.Marshal written).2 = none → statusCode (Serve env req) = 200) ∧
      ((env.Marshal written).2 ≠ none → statusCode (Serve env req) = 500) := by
  rw [← hraw] at herr
  rw [Serve_of_decode_failure hv hreq hobj herr]
  exact ⟨internalErrors_writeReview env _, _,
    ({ UID := request.UID,
       Result := some { Message := e, Status := StatusFailure } } : AdmissionResponse),
    ({ Message := e, Status := StatusFailure } : Status),
    reviewsWritten_writeReview env _, Write_mem_writeReview env _, rfl, rfl, rfl, rfl, rfl,
    statusCode_writeReview_ok env _, statusCode_writeReview_failed env _⟩

/-- C8: for a validated envelope whose typed object is nil and whose decoding
fails (the deserializer returns its error and no object), the one envelope
`Serve` writes is the validated envelope with only `Response` replaced: its
`Request` (UID, raw payload, nil typed object and every other field) is the
inbound one. -/
theorem decode_failure_mirrors_request (env : Env) (req : Request)
    (review : AdmissionReview) (request : AdmissionRequest) (e : String)
    (hv : validateRequest env req = .ok review) (hreq : review.Request = some request)
    (hobj : request.Object.Object = none)
    (hdec : env.Decode request.Object.Raw = (none, some e)) :
    ∃ written response,
      reviewsWritten (Serve env req) = [written] ∧
      written = { review with Response := some response } ∧
      written.Request = some request ∧ written.Response = some response := by
  have hs := Serve_of_validated hv hreq
  rw [hobj, hdec] at hs
  simp only at hs
  rw [request_with_nil_object hobj, ← hreq] at hs
  rw [hs]
  exact ⟨_, { UID := request.UID, Result := some { Message := e, Status := StatusFailure } },
    reviewsWritten_writeReview env _, rfl, hreq, rfl⟩

/-- C9: every run of `Serve` takes exactly one of two exits: one `InternalError`
call (then the status is 500 and no envelope is written), or one call of
`writeReview` on an envelope with a populated `Response` (then `Serve` makes no
`InternalError` call); the run never panics. -/
theorem Serve_exactly_one_exit (env : Env) (req : Request) :
    (internalErrors (Serve env req)).length + (reviewsWritten (Serve env req)).length = 1 ∧
    (∀ written ∈ reviewsWritten (Serve env req), written.Response ≠ none) ∧
    (internalErrors (Serve env req) ≠ [] →
      statusCode (Serve env req) = 500 ∧ (Serve env req).length = 1) ∧
    Event.panic ∉ Serve env req := by
  rcases Serve_cases env req with ⟨err, hs⟩ | ⟨review, request, object, e, -, -, -, -, hs⟩ |
    ⟨review, request, secret, -, -, -, hs⟩
  · rw [hs]
    simp [internalErrors, reviewsWritten, statusCode, StatusInternalServerError]
  · rw [hs]
    simp [panic_not_mem_writeReview]
  · rw [hs]
    simp [panic_not_mem_writeReview]

/-- C10: if `Serve` writes an envelope whose `Response` has `Allowed` true, then
`validateRequest` succeeded, the typed object of the written request is a
`*corev1.Secret`, and that object was either pre-typed in the validated request
or decoded from its raw payload without error. -/
theorem allowed_only_for_secret (env : Env) (req : Request) (written : AdmissionReview)
    (response : AdmissionResponse) (h : written ∈ reviewsWritten (Serve env req))
    (hresp : written.Response = some response) (hallowed : response.Allowed = true) :
    ∃ review request secret,
      validateRequest env req = .ok review ∧ review.Request = some request ∧
      written.Request =
        some { request with Object := { request.Object with Object := some (.Secret secret) } } ∧
      (request.Object.Object = some (.Secret secret) ∨
        (request.Object.Object = none ∧
          env.Decode request.Object.Raw = (some (.Secret secret), none))) := by
  rcases Serve_cases env req with ⟨err, hs⟩ | ⟨review, request, object, e, -, -, -, -, hs⟩ |
    ⟨review, request, secret, hv, hreq, htyped, hs⟩
  · rw [hs] at h
    simp [reviewsWritten] at h
  · rw [hs] at h
    simp only [reviewsWritten_writeReview, List.mem_singleton] at h
    subst h
    simp only [Option.some.injEq] at hresp
    subst hresp
    simp at hallowed
  · rw [hs] at h
    simp only [reviewsWritten_klog_append, reviewsWritten_writeReview, List.mem_singleton] at h
    subst h
    exact ⟨review, request, secret, hv, hreq, rfl, htyped⟩

/-! ## The claims on the fixture -/

theorem nil_request_internal_error_witness :
    (secretsRequest []).Body = .ok [] ∧
    fixtureEnv.DecodeReview [] = .ok (.Review {}) ∧
    ({} : AdmissionReview).Request = none ∧
    validateRequest fixtureEnv (secretsRequest []) = .error "unexpected nil request" ∧
    Serve fixtureEnv (secretsRequest []) =
      [Event.InternalError "/secrets" "unexpected nil request"] ∧
    statusCode (Serve fixtureEnv (secretsRequest [])) = 500 ∧
    reviewsWritten (Serve fixtureEnv (secretsRequest [])) = [] :=
  ⟨rfl, rfl, rfl, nil_request_internal_error fixtureEnv (secretsRequest []) [] {} rfl rfl rfl⟩

theorem decode_failure_written_as_denial_witness :
    validateRequest fixtureEnv (secretsRequest [1]) = .ok { Request := some { UID := "u1" } } ∧
    (fixtureEnv.Decode []).2 = some "Object 'Kind' is missing in ''" ∧
    internalErrors (Serve fixtureEnv (secretsRequest [1])) = [] ∧
    ∃ written response result,
      Serve fixtureEnv (secretsRequest [1]) = writeReview fixtureEnv written ∧
      reviewsWritten (Serve fixtureEnv (secretsRequest [1])) = [written] ∧
      written.Response = some response ∧ response.Allowed = false ∧
      response.Result = some result ∧
      result.Message = "Object 'Kind' is missing in ''" ∧ result.Status = StatusFailure :=
  ⟨rfl, rfl, decode_failure_written_as_denial fixtureEnv (secretsRequest [1])
    { Request := some { UID := "u1" } } { UID := "u1" } "Object 'Kind' is missing in ''"
    rfl rfl rfl rfl⟩

theorem unsupported_type_internal_error_witness :
    validateRequest fixtureEnv (secretsRequest [3]) =
      .ok { Request := some { UID := "u3", Object := { Raw := [8] } } } ∧
    fixtureEnv.Decode [8] = (some (.Other "AdmissionReview"), none) ∧
    Serve fixtureEnv (secretsRequest [3]) =
      [Event.InternalError "/secrets" "unexpected object type: &AdmissionReview"] ∧
    statusCode (Serve fixtureEnv (secretsRequest [3])) = 500 ∧
    reviewsWritten (Serve fixtureEnv (secretsRequest [3])) = [] :=
  ⟨rfl, rfl, unsupported_type_internal_error fixtureEnv (secretsRequest [3])
    { Request := some { UID := "u3", Object := { Raw := [8] } } }
    { UID := "u3", Object := { Raw := [8] } } (some (.Other "AdmissionReview"))
    rfl rfl (Or.inr ⟨rfl, rfl⟩) (by intro secret h; cases h)⟩

theorem response_uid_is_request_uid_witness :
    missingKindReview ∈ reviewsWritten (Serve fixtureEnv (secretsRequest [1])) ∧
    ∃ request response,
      missingKindReview.Request = some request ∧ missingKindReview.Response = some response ∧
      response.UID = request.UID :=
  have h : missingKindReview ∈ reviewsWritten (Serve fixtureEnv (secretsRequest [1])) :=
    List.mem_singleton.mpr rfl
  ⟨h, response_uid_is_request_uid fixtureEnv (secretsRequest [1]) missingKindReview h⟩

theorem missing_object_answers_failure_witness :
    validateRequest fixtureEnv (secretsRequest [1]) = .ok { Request := some { UID := "u1" } } ∧
    (fixtureEnv.Decode []).2 = some "Object 'Kind' is missing in ''" ∧
    internalErrors (Serve fixtureEnv (secretsRequest [1])) = [] ∧
    ∃ written response result,
      reviewsWritten (Serve fixtureEnv (secretsRequest [1])) = [written] ∧
      Event.Write (fixtureEnv.Marshal written).1 ∈ Serve fixtureEnv (secretsRequest [1]) ∧
      written.Response = some response ∧ response.Allowed = false ∧
      response.Result = some result ∧
      result.Message = "Object 'Kind' is missing in ''" ∧ result.Status = "Failure" ∧
      ((fixtureEnv.Marshal written).2 = none →
        statusCode (Serve fixtureEnv (secretsRequest [1])) = 200) ∧
      ((fixtureEnv.Marshal written).2 ≠ none →
        statusCode (Serve fixtureEnv (secretsRequest [1])) = 500) :=
  ⟨rfl, rfl, missing_object_answers_failure fixtureEnv (secretsRequest [1])
    { Request := some { UID := "u1" } } { UID := "u1" } "Object 'Kind' is missing in ''"
    rfl rfl rfl rfl rfl⟩

theorem decode_failure_mirrors_request_witness :
    validateRequest fixtureEnv (secretsRequest [1]) = .ok { Request := some { UID := "u1" } } ∧
    fixtureEnv.Decode [] = (none, some "Object 'Kind' is missing in ''") ∧
    ∃ written response,
      reviewsWritten (Serve fixtureEnv (secretsRequest [1])) = [written] ∧
      written = { Request := some { UID := "u1" }, Response := some response } ∧
      written.Request = some { UID := "u1" } ∧ written.Response = some response :=
  ⟨rfl, rfl, decode_failure_mirrors_request fixtureEnv (secretsRequest [1])
    { Request := some { UID := "u1" } } { UID := "u1" } "Object 'Kind' is missing in ''"
    rfl rfl rfl rfl⟩

theorem allowed_only_for_secret_witness :
    allowedSecretReview ∈ reviewsWritten (Serve coreSchemeEnv (secretsRequest [2])) ∧
    allowedSecretReview.Response = some { UID := "u2", Allowed := true } ∧
    ∃ review request secret,
      validateRequest coreSchemeEnv (secretsRequest [2]) = .ok review ∧
      review.Request = some request ∧
      allowedSecretReview.Request =
        some { request with Object := { request.Object with Object := some (.Secret secret) } } ∧
      (request.Object.Object = some (.Secret secret) ∨
        (request.Object.Object = none ∧
          coreSchemeEnv.Decode request.Object.Raw = (some (.Secret secret), none))) :=
  have h : allowedSecretReview ∈ reviewsWritten (Serve coreSchemeEnv (secretsRequest [2])) :=
    List.mem_singleton.mpr rfl
  ⟨h, rfl, allowed_only_for_secret coreSchemeEnv (secretsRequest [2]) allowedSecretReview
    { UID := "u2", Allowed := true } h rfl rfl⟩

end Admission
